import Mathlib

/-!
Shallow embedding of src/app.py (tv-mt4-bridge): request-value model,
authentication (check_secret), trade-window gate (in_trade_window), signal
normalization (build_signal), the one-shot store (STATE last/pending with the
webhook and pull handlers), and the line-text output format, together with
theorems settling the specification's claims about them.

Python floats are embedded as rationals; machine-level float representation is
not modelled. Environment inputs (current time, generated uuid id, timestamp
text) are passed as explicit parameters.
-/

/-- Characters for decimal digits 0 to 9. -/
def digitChar : Nat → Char
  | 0 => '0'
  | 1 => '1'
  | 2 => '2'
  | 3 => '3'
  | 4 => '4'
  | 5 => '5'
  | 6 => '6'
  | 7 => '7'
  | 8 => '8'
  | _ => '9'

/-- Fuel-indexed most-significant-first digit expansion of a natural number. -/
def natDigitsAux : Nat → Nat → List Char
  | 0, _ => []
  | fuel + 1, n =>
    if n < 10 then [digitChar n]
    else natDigitsAux fuel (n / 10) ++ [digitChar (n % 10)]

/-- Decimal digit expansion of a natural number. -/
def natDigits (n : Nat) : List Char := natDigitsAux (n + 1) n

/-- Numeric value of a most-significant-first digit string. -/
def digitsVal (cs : List Char) : Nat := cs.foldl (fun a c => 10 * a + (c.toNat - 48)) 0

/-- Decimal rendering of an integer, with a leading minus sign when negative. -/
def intChars (i : Int) : List Char :=
  if i < 0 then '-' :: natDigits i.natAbs else natDigits i.natAbs

/-- Model of the Python numeric-to-text conversion str(x) used for the embedded
rational values: an injective, nonempty, pipe-free rendering (integer part,
and the denominator after a slash when it is not 1). The precise digit string
Python produces for a float is not modelled; the claims only need that the
rendering is recoverable, nonempty and free of the pipe delimiter. -/
def numChars (q : ℚ) : List Char :=
  intChars q.num ++ (if q.den = 1 then [] else '/' :: natDigits q.den)

/-- String form of natDigits. -/
def natStr (n : Nat) : String := ⟨natDigits n⟩

/-- String form of intChars. -/
def intStr (i : Int) : String := ⟨intChars i⟩

/-- String form of numChars. -/
def numStr (q : ℚ) : String := ⟨numChars q⟩

/-- Parse an all-digit nonempty character list back to a natural number. -/
def parseNatChars (cs : List Char) : Option Nat :=
  if cs ≠ [] ∧ cs.all Char.isDigit then some (digitsVal cs) else none

/-- Parse an optionally minus-signed digit list back to an integer. -/
def parseIntChars : List Char → Option Int
  | [] => none
  | c :: cs =>
    if c = '-' then (parseNatChars cs).map (fun n : Nat => -(n : Int))
    else (parseNatChars (c :: cs)).map (fun n : Nat => (n : Int))

/-- Parse the numChars rendering back to a rational. -/
def parseRatChars (cs : List Char) : Option ℚ :=
  if '/' ∈ cs then
    match parseIntChars (cs.takeWhile (fun c => c != '/')),
        parseNatChars ((cs.dropWhile (fun c => c != '/')).tail) with
    | some i, some n => some ((i : ℚ) / (n : ℚ))
    | _, _ => none
  else (parseIntChars cs).map (fun i : Int => (i : ℚ))

/-- Model of Python str.strip(): drop whitespace from both ends. -/
def pyStrip (s : String) : String :=
  ⟨((s.data.dropWhile Char.isWhitespace).reverse.dropWhile Char.isWhitespace).reverse⟩

/-- Model of Python str.upper() on the ASCII range. -/
def pyUpper (s : String) : String := ⟨s.data.map Char.toUpper⟩

/-- Model of Python str.lower() on the ASCII range. -/
def pyLower (s : String) : String := ⟨s.data.map Char.toLower⟩

/-- Decoded request values as produced by parse_body_to_dict
(src/app.py lines 115 to 151): JSON strings and numbers; Python numbers
(int and float) are embedded as rationals. -/
inductive PyVal where
  | vStr (s : String)
  | vNum (q : ℚ)
deriving DecidableEq

/-- Python truthiness of an optional decoded value: None, the empty string and
the number 0 are falsy, everything else truthy. -/
def pyTruthy : Option PyVal → Bool
  | none => false
  | some (.vStr s) => decide (s ≠ "")
  | some (.vNum q) => decide (q.num ≠ 0)

/-- Python `a or b` on optional decoded values: the first operand when truthy,
otherwise the second. -/
def pyOr (a b : Option PyVal) : Option PyVal := if pyTruthy a then a else b

/-- Python `a or d` against a truthy literal default d. -/
def pyOrD (a : Option PyVal) (d : PyVal) : PyVal :=
  match a with
  | some v => if pyTruthy (some v) then v else d
  | none => d

/-- Python str() view of a decoded value (strings unchanged, numbers rendered;
app.py would raise on a numeric where a str is expected, a case no claim
exercises). -/
def pyToStr : PyVal → String
  | .vStr s => s
  | .vNum q => numStr q

/-- Optional string view of an optional decoded value. -/
def optStr (a : Option PyVal) : Option String := a.map pyToStr

/-- The decoded request mapping (Python dict) as an association list. -/
abbrev SMap := List (String × PyVal)

/-- Python dict.get. -/
def sget (m : SMap) (k : String) : Option PyVal := m.lookup k

/-- Value of a decimal literal with integer part ip and fraction part fp. -/
def decVal (ip fp : List Char) : ℚ :=
  mkRat (Int.ofNat (digitsVal ip * 10 ^ fp.length + digitsVal fp)) (10 ^ fp.length)

/-- Unsigned decimal body of the Python float(s) model: digits with at most one
dot and at least one digit. -/
def pyFloatCore (cs : List Char) : Option ℚ :=
  if (cs.all fun c => c.isDigit || c == '.') ∧ cs.count '.' ≤ 1 ∧ cs.any Char.isDigit then
    some (decVal (cs.takeWhile fun c => c != '.') ((cs.dropWhile fun c => c != '.').tail))
  else none

/-- Model of Python float(s) on plain decimal literals: optional sign, digits
with at most one dot (exponent forms, underscores, inf and nan are not
modelled; no claim depends on them). -/
def pyFloat (s : String) : Option ℚ :=
  match s.data with
  | '-' :: rest => (pyFloatCore rest).map Rat.neg
  | '+' :: rest => pyFloatCore rest
  | _ => pyFloatCore s.data

/-- safe_float, src/app.py lines 77 to 88: None for absent values, numbers
passed through, strings trimmed with empty and case-insensitive na treated as
absent, otherwise parsed as a decimal number, with parse failure yielding
absence. -/
def safe_float : Option PyVal → Option ℚ
  | none => none
  | some (.vNum q) => some q
  | some (.vStr x) =>
    let s := pyStrip x
    if s = "" ∨ pyLower s = "na" then none else pyFloat s

/-- Python `o or d` applied to an optional float result (None and 0.0 falsy). -/
def qOr (o : Option ℚ) (d : ℚ) : ℚ :=
  match o with
  | some q => if q.num = 0 then d else q
  | none => d

/-- Python int() applied to a float value: truncation toward zero. -/
def ratTrunc (q : ℚ) : Int := q.num.tdiv q.den

/-- normalize_action, src/app.py lines 69 to 75. -/
def normalize_action (a : Option String) : String :=
  let u := pyUpper (pyStrip (a.getD ""))
  if u = "BUY" ∨ u = "LONG" then "BUY"
  else if u = "SELL" ∨ u = "SHORT" then "SELL"
  else ""

/-- Python `a or b` on optional strings (None and "" falsy). -/
def strOr (a b : Option String) : Option String :=
  match a with
  | some s => if s = "" then b else some s
  | none => b

/-- check_secret, src/app.py lines 62 to 67: fail closed on an empty configured
secret, otherwise compare the first truthy candidate, trimmed, for exact
equality. The configured secret is the already-stripped SECRET value of
line 18. -/
def check_secret (secret : String) (payload header query : Option String) : Bool :=
  if secret = "" then false
  else pyStrip ((strOr payload (strOr header query)).getD "") == secret

/-- The canonical Signal record built by build_signal
(src/app.py lines 102 to 113). -/
structure Signal where
  id : String
  ts : String
  action : String
  symbol : String
  lots : ℚ
  sl : Option ℚ
  tp : Option ℚ
  comment : String
  magic : Int
  raw : SMap
deriving DecidableEq

/-- build_signal, src/app.py lines 90 to 113. The generated uuid fragment and
the timestamp text are environment inputs, passed as freshId and ts. -/
def build_signal (data : SMap) (freshId ts : String) : Signal :=
  { id := pyStrip (pyToStr (pyOrD (sget data "id") (pyOrD (sget data "signal_id") (.vStr freshId))))
    ts := ts
    action := normalize_action (optStr (pyOr (sget data "action")
      (pyOr (sget data "side") (sget data "signal"))))
    symbol := pyStrip (pyToStr (pyOrD (sget data "symbol") (pyOrD (sget data "ticker") (.vStr "XAUUSD"))))
    lots := qOr (safe_float (some (pyOrD (sget data "lots")
      (pyOrD (sget data "lot") (pyOrD (sget data "qty") (.vNum (mkRat 1 100))))))) (mkRat 1 100)
    sl := safe_float (sget data "sl")
    tp := safe_float (sget data "tp")
    comment := pyStrip (pyToStr (pyOrD (sget data "comment") (pyOrD (sget data "cmt") (.vStr "TV"))))
    magic := ratTrunc (qOr (safe_float (some (pyOrD (sget data "magic") (.vNum (mkRat 2026 1))))) (mkRat 2026 1))
    raw := data }

/-- in_trade_window, src/app.py lines 46 to 51: times of day are given in
seconds; enforceHours is the configured ENFORCE_HOURS string (already stripped
at load, line 24). -/
def in_trade_window (enforceHours : String) (tradeStart tradeEnd t : Nat) : Bool :=
  if enforceHours ≠ "1" then true
  else decide (tradeStart ≤ t) && decide (t ≤ tradeEnd)

/-- The process-wide STATE dict, src/app.py lines 38 to 41. -/
structure BState where
  last : Option Signal
  pending : Option Signal
deriving DecidableEq

/-- Initial empty state (process start). -/
def initState : BState := { last := none, pending := none }

/-- The store write of an accepted webhook, src/app.py lines 197 to 198:
both slots set together. -/
def writeSig (sig : Signal) (st : BState) : BState :=
  { last := some sig, pending := some sig }

/-- The consume step of /pull, src/app.py lines 226 to 233: read pending and,
when present, clear it, returning what was read. -/
def takePending (st : BState) : Option Signal × BState :=
  match st.pending with
  | none => (none, st)
  | some sig => (some sig, { st with pending := none })

/-- Server configuration: SECRET, ENFORCE_HOURS, TRADE_START and TRADE_END
(seconds of day). -/
structure Config where
  secret : String
  enforceHours : String
  tradeStart : Nat
  tradeEnd : Nat

/-- The body-borne secret candidate of the webhook handler,
src/app.py line 176. -/
def payload_secret (data : SMap) : Option String :=
  optStr (pyOr (sget data "secret") (pyOr (sget data "key") (sget data "token")))

/-- The webhook handler, src/app.py lines 172 to 202, reduced to its status
code and store effect (response bodies and the outbound notification are
outside the store). -/
def webhook (cfg : Config) (data : SMap) (headerS queryS : Option String)
    (t : Nat) (freshId ts : String) (st : BState) : Nat × BState :=
  if ¬ check_secret cfg.secret (payload_secret data) headerS queryS then (401, st)
  else if ¬ in_trade_window cfg.enforceHours cfg.tradeStart cfg.tradeEnd t then (403, st)
  else
    let sig := build_signal data freshId ts
    if sig.action = "" then (400, st)
    else (200, writeSig sig st)

/-- Pipe-sanitized comment characters of the txt line, src/app.py line 239. -/
def commentChars (sig : Signal) : List Char :=
  sig.comment.data.map (fun c => if c = '|' then ' ' else c)

/-- Rendered sl field of the txt line (empty when absent), src/app.py
line 237. -/
def slChars (sig : Signal) : List Char :=
  match sig.sl with
  | none => []
  | some v => numChars v

/-- Rendered tp field of the txt line (empty when absent), src/app.py
line 238. -/
def tpChars (sig : Signal) : List Char :=
  match sig.tp with
  | none => []
  | some v => numChars v

/-- The 10-field pipe-delimited txt line of /pull, src/app.py line 240. -/
def renderTxt (sig : Signal) : String :=
  "OK|" ++ sig.id ++ "|" ++ sig.action ++ "|" ++ sig.symbol ++ "|" ++ numStr sig.lots
    ++ "|" ++ (⟨slChars sig⟩ : String) ++ "|" ++ (⟨tpChars sig⟩ : String) ++ "|" ++ sig.ts
    ++ "|" ++ intStr sig.magic ++ "|" ++ (⟨commentChars sig⟩ : String)

/-- Responses of the /pull handler. -/
inductive PullResp where
  | unauthorized
  | jsonNull
  | txtNone
  | jsonSig (sig : Signal)
  | txtLine (line : String)
deriving DecidableEq

/-- The /pull handler, src/app.py lines 213 to 243. -/
def pull (secret : String) (headerS queryS fmtArg : Option String) (st : BState) :
    PullResp × BState :=
  if ¬ check_secret secret none headerS queryS then (.unauthorized, st)
  else
    let fmt := pyLower ((strOr fmtArg (some "json")).getD "json")
    match st.pending with
    | none => if fmt = "txt" then (.txtNone, st) else (.jsonNull, st)
    | some sig =>
      if fmt = "txt" then (.txtLine (renderTxt sig), { st with pending := none })
      else (.jsonSig sig, { st with pending := none })

/-- The four HTTP operations that touch or read the store: webhook, pull,
latest and health (src/app.py lines 162 to 243; latest and health only read). -/
inductive Op where
  | webhookOp (data : SMap) (headerS queryS : Option String) (t : Nat) (freshId ts : String)
  | pullOp (headerS queryS fmtArg : Option String)
  | latestOp (headerS queryS : Option String)
  | healthOp

/-- State effect of one operation under a fixed configuration. -/
def applyOp (cfg : Config) (st : BState) : Op → BState
  | .webhookOp data h q t fid ts => (webhook cfg data h q t fid ts st).2
  | .pullOp h q f => (pull cfg.secret h q f st).2
  | .latestOp _ _ => st
  | .healthOp => st

/-- The store invariant of the spec: pending is either absent or the very
signal held in last. -/
def stateInv (st : BState) : Prop := st.pending = none ∨ st.pending = st.last

/-- Program counter of one /pull handler inside the consume region of
src/app.py lines 226 to 233: it reads STATE pending into a local (line 226),
then, when the local is non-None, clears the slot and returns the local
(lines 233 and 243); no lock is taken between the two steps. -/
inductive PullPC where
  | start
  | mid (obs : Option Signal)
  | done (ret : Option Signal)
deriving DecidableEq

/-- One atomic step of a single puller thread against the shared pending
slot. -/
def stepThread : Option Signal → PullPC → Option Signal × PullPC
  | p, .start => (p, .mid p)
  | p, .mid none => (p, .done none)
  | _, .mid (some sig) => (none, .done (some sig))
  | p, .done r => (p, .done r)

/-- Shared pending slot plus two concurrent puller threads. -/
structure Race2 where
  pending : Option Signal
  t1 : PullPC
  t2 : PullPC
deriving DecidableEq

/-- Scheduler step: false runs thread one, true runs thread two. -/
def raceStep (st : Race2) : Bool → Race2
  | false =>
    let r := stepThread st.pending st.t1
    { st with pending := r.1, t1 := r.2 }
  | true =>
    let r := stepThread st.pending st.t2
    { st with pending := r.1, t2 := r.2 }

/-- Run a schedule of interleaved thread steps. -/
def raceRun (st : Race2) (sched : List Bool) : Race2 := sched.foldl raceStep st

/-- A concrete stored signal used in the race exhibit. -/
def sig0 : Signal :=
  { id := "abc12345", ts := "2026-01-01T09:00:00-04:00", action := "BUY",
    symbol := "XAUUSD", lots := mkRat 1 100, sl := none, tp := none,
    comment := "TV", magic := 2026, raw := [] }

/-- Splitting a character list on the pipe character (the consumer-side parse
of the txt line). -/
def splitPipeChars : List Char → List (List Char)
  | [] => [[]]
  | c :: cs =>
    let r := splitPipeChars cs
    if c = '|' then [] :: r
    else
      match r with
      | [] => [[c]]
      | f :: rest => (c :: f) :: rest

/-- Splitting a string on the pipe character. -/
def splitPipe (s : String) : List String := (splitPipeChars s.data).map (fun f => ⟨f⟩)

/-- The round-trip property of the txt line: splitting on the pipe character
yields exactly 10 fields, the string fields at positions 1, 2, 3 and 7 are id,
action, symbol and timestamp, the numeric fields parse back to lots and magic
exactly, and the sl and tp fields are empty precisely when the values are
absent. -/
def roundtripOK (sig : Signal) : Prop :=
  (splitPipe (renderTxt sig)).length = 10 ∧
  (splitPipe (renderTxt sig))[1]? = some sig.id ∧
  (splitPipe (renderTxt sig))[2]? = some sig.action ∧
  (splitPipe (renderTxt sig))[3]? = some sig.symbol ∧
  ((splitPipe (renderTxt sig))[4]?.bind (fun s => parseRatChars s.data)) = some sig.lots ∧
  (splitPipe (renderTxt sig))[7]? = some sig.ts ∧
  ((splitPipe (renderTxt sig))[8]?.bind (fun s => parseIntChars s.data)) = some sig.magic ∧
  ((splitPipe (renderTxt sig))[5]? = some "" ↔ sig.sl = none) ∧
  ((splitPipe (renderTxt sig))[6]? = some "" ↔ sig.tp = none)

/-- The claimed behaviour of the magic field in C9: the integer coercion of the
magic value whenever present and parseable, the default 2026 otherwise. -/
def specMagic (v : Option PyVal) : Int :=
  match v with
  | none => 2026
  | some x =>
    match safe_float (some x) with
    | some q => ratTrunc q
    | none => 2026

/-- The corrected behaviour of the magic field: the default 2026 also applies
when the value is falsy (empty string or the number 0) or parses to zero,
mirroring the two Python `or 2026` fallbacks on line 97. -/
def specMagicAmended (v : Option PyVal) : Int :=
  match v with
  | none => 2026
  | some x =>
    if pyTruthy (some x) = false then 2026
    else
      match safe_float (some x) with
      | none => 2026
      | some q => if q = 0 then 2026 else ratTrunc q

/-- The spec-side candidate selection of C2: the first non-empty candidate
among payload, header and query, in that priority, or the empty string. -/
def firstNonEmptyCand (p h q : Option String) : String :=
  (([p, h, q].filterMap id).filter (fun s => s != "")).headD ""

/-- Concrete configuration for the window-rejection witness: secret s,
enforcement on, window 09:00 to 09:01. -/
def cfgW : Config := { secret := "s", enforceHours := "1", tradeStart := 32400, tradeEnd := 32460 }

/-- Concrete authenticated BUY payload for the window-rejection witness. -/
def dataW : SMap := [("secret", .vStr "s"), ("action", .vStr "buy")]

/-- Concrete configuration for the pipe-symbol counterexample: secret s,
enforcement off. -/
def cfg7 : Config := { secret := "s", enforceHours := "0", tradeStart := 0, tradeEnd := 0 }

/-- Concrete payload whose symbol carries a pipe character. -/
def data7 : SMap := [("secret", .vStr "s"), ("action", .vStr "buy"), ("symbol", .vStr "A|B")]

/-- The stored signal produced from data7. -/
def sig7 : Signal := build_signal data7 "id0" "ts0"

/-- Concrete pipe-free signal for the round-trip witness. -/
def wSig : Signal :=
  { id := "id1", ts := "2026-02-03T10:00:00-04:00", action := "BUY", symbol := "XAUUSD",
    lots := 1 / 2, sl := none, tp := some 3, comment := "TV", magic := 7, raw := [] }

lemma digitChar_val (d : Nat) (h : d < 10) : (digitChar d).toNat - 48 = d := by
  interval_cases d <;> decide

lemma digitChar_isDigit (d : Nat) (h : d < 10) : (digitChar d).isDigit = true := by
  interval_cases d <;> decide

lemma natDigitsAux_ne_nil (fuel n : Nat) (h : n < fuel) : natDigitsAux fuel n ≠ [] := by
  cases fuel with
  | zero => omega
  | succ f =>
    simp only [natDigitsAux]
    split
    · simp
    · intro hc
      have := (List.append_eq_nil.mp hc).2
      simp at this

lemma natDigitsAux_digits (fuel n : Nat) (h : n < fuel) :
    ∀ c ∈ natDigitsAux fuel n, c.isDigit = true := by
  induction fuel generalizing n with
  | zero => omega
  | succ f ih =>
    simp only [natDigitsAux]
    split
    · next hlt =>
      intro c hc
      simp only [List.mem_singleton] at hc
      subst hc
      exact digitChar_isDigit n hlt
    · next hge =>
      intro c hc
      rcases List.mem_append.mp hc with h1 | h2
      · have hn : 0 < n := by omega
        have hdiv : n / 10 < n := Nat.div_lt_self hn (by omega)
        exact ih (n / 10) (by omega) c h1
      · simp only [List.mem_singleton] at h2
        subst h2
        exact digitChar_isDigit _ (Nat.mod_lt _ (by omega))

lemma digitsVal_natDigitsAux (fuel n : Nat) (h : n < fuel) :
    digitsVal (natDigitsAux fuel n) = n := by
  induction fuel generalizing n with
  | zero => omega
  | succ f ih =>
    simp only [natDigitsAux]
    split
    · next hlt =>
      simp [digitsVal, digitChar_val n hlt]
    · next hge =>
      have hn : 0 < n := by omega
      have hdn : n / 10 < n := Nat.div_lt_self hn (by omega)
      have hdiv : n / 10 < f := by omega
      have h1 := ih (n / 10) hdiv
      rw [digitsVal] at h1 ⊢
      rw [List.foldl_append, h1]
      simp only [List.foldl_cons, List.foldl_nil]
      rw [digitChar_val (n % 10) (Nat.mod_lt _ (by omega))]
      omega

lemma natDigits_ne_nil (n : Nat) : natDigits n ≠ [] :=
  natDigitsAux_ne_nil _ _ (Nat.lt_succ_self n)

lemma natDigits_digits (n : Nat) : ∀ c ∈ natDigits n, c.isDigit = true :=
  natDigitsAux_digits _ _ (Nat.lt_succ_self n)

lemma digitsVal_natDigits (n : Nat) : digitsVal (natDigits n) = n :=
  digitsVal_natDigitsAux _ _ (Nat.lt_succ_self n)

lemma isDigit_not_special (c : Char) (h : c.isDigit = true) :
    c ≠ '|' ∧ c ≠ '-' ∧ c ≠ '/' := by
  refine ⟨?_, ?_, ?_⟩ <;> intro hc <;> subst hc <;> exact absurd h (by decide)

lemma parseNatChars_natDigits (n : Nat) : parseNatChars (natDigits n) = some n := by
  rw [parseNatChars, if_pos]
  · rw [digitsVal_natDigits]
  · exact ⟨natDigits_ne_nil n, List.all_eq_true.mpr (natDigits_digits n)⟩

lemma intChars_mem (i : Int) : ∀ c ∈ intChars i, c.isDigit = true ∨ c = '-' := by
  rw [intChars]
  split
  · intro c hc
    rcases List.mem_cons.mp hc with h | h
    · exact Or.inr h
    · exact Or.inl (natDigits_digits _ c h)
  · intro c hc
    exact Or.inl (natDigits_digits _ c hc)

lemma intChars_no_pipe (i : Int) : '|' ∉ intChars i := by
  intro h
  rcases intChars_mem i '|' h with hd | he
  · exact absurd hd (by decide)
  · exact absurd he (by decide)

lemma intChars_no_slash (i : Int) : '/' ∉ intChars i := by
  intro h
  rcases intChars_mem i '/' h with hd | he
  · exact absurd hd (by decide)
  · exact absurd he (by decide)

lemma intChars_ne_nil (i : Int) : intChars i ≠ [] := by
  rw [intChars]
  split
  · simp
  · exact natDigits_ne_nil _

lemma numChars_no_pipe (q : ℚ) : '|' ∉ numChars q := by
  rw [numChars]
  intro h
  rcases List.mem_append.mp h with h1 | h2
  · exact intChars_no_pipe _ h1
  · revert h2
    split
    · simp
    · intro h2
      rcases List.mem_cons.mp h2 with he | hm
      · exact absurd he (by decide)
      · exact absurd (natDigits_digits _ _ hm) (by decide)

lemma numChars_ne_nil (q : ℚ) : numChars q ≠ [] := by
  rw [numChars]
  intro h
  exact intChars_ne_nil q.num (List.append_eq_nil.mp h).1

lemma parseIntChars_intChars (i : Int) : parseIntChars (intChars i) = some i := by
  rw [intChars]
  split
  · next hneg =>
    have hp : parseIntChars ('-' :: natDigits i.natAbs)
        = (parseNatChars (natDigits i.natAbs)).map (fun n : Nat => -(n : Int)) := by
      simp [parseIntChars]
    rw [hp, parseNatChars_natDigits]
    simp only [Option.map_some']
    congr 1
    rw [Int.ofNat_natAbs_of_nonpos (le_of_lt hneg), neg_neg]
  · next hpos =>
    cases hnd : natDigits i.natAbs with
    | nil => exact absurd hnd (natDigits_ne_nil _)
    | cons c cs =>
      have hc : c.isDigit = true := natDigits_digits _ c (by rw [hnd]; simp)
      have hcne : c ≠ '-' := (isDigit_not_special c hc).2.1
      have hp : parseIntChars (c :: cs)
          = (parseNatChars (c :: cs)).map (fun n : Nat => (n : Int)) := by
        simp only [parseIntChars]
        rw [if_neg hcne]
      rw [hp, ← hnd, parseNatChars_natDigits]
      simp only [Option.map_some']
      congr 1
      exact Int.natAbs_of_nonneg (not_lt.mp hpos)

lemma takeWhile_append_stop (p : Char → Bool) (xs ys : List Char)
    (hx : ∀ c ∈ xs, p c = true) (y : Char) (hy : p y = false) :
    (xs ++ y :: ys).takeWhile p = xs ∧ (xs ++ y :: ys).dropWhile p = y :: ys := by
  induction xs with
  | nil =>
    rw [List.nil_append, List.takeWhile_cons, List.dropWhile_cons, hy]
    simp
  | cons a as ih =>
    have ha : p a = true := hx a (by simp)
    have h2 := ih (fun c hc => hx c (by simp [hc]))
    simp only [List.cons_append, List.takeWhile_cons, List.dropWhile_cons, ha, if_pos]
    exact ⟨by rw [h2.1], by rw [h2.2]⟩

lemma parseRatChars_numChars (q : ℚ) : parseRatChars (numChars q) = some q := by
  by_cases hden : q.den = 1
  · have hnc : numChars q = intChars q.num := by
      rw [numChars, if_pos hden, List.append_nil]
    rw [hnc, parseRatChars, if_neg (intChars_no_slash q.num), parseIntChars_intChars]
    simp only [Option.map_some']
    congr 1
    have h1 : ((q.num : ℚ)) = (q.num : ℚ) / ((q.den : ℕ) : ℚ) := by
      rw [hden]
      simp
    rw [h1, Rat.num_div_den]
  · have hnc : numChars q = intChars q.num ++ '/' :: natDigits q.den := by
      rw [numChars, if_neg hden]
    have hsl : ('/' : Char) ∈ numChars q := by
      rw [hnc]
      exact List.mem_append.mpr (Or.inr (by simp))
    have htw := takeWhile_append_stop (fun c => c != '/') (intChars q.num) (natDigits q.den)
      (fun c hc => by
        rcases intChars_mem q.num c hc with hd | he
        · exact bne_iff_ne.mpr (isDigit_not_special c hd).2.2
        · subst he; decide)
      '/' (by decide)
    rw [parseRatChars, if_pos (hnc ▸ hsl)]
    rw [hnc, htw.1, htw.2]
    simp only [List.tail_cons]
    rw [parseIntChars_intChars, parseNatChars_natDigits]
    simp only
    congr 1
    exact Rat.num_div_den q

lemma splitPipeChars_no_pipe (f : List Char) (h : '|' ∉ f) : splitPipeChars f = [f] := by
  induction f with
  | nil => rfl
  | cons c cs ih =>
    have hc : c ≠ '|' := by
      intro e
      exact h (by simp [e])
    have hcs : '|' ∉ cs := fun hm => h (by simp [hm])
    simp only [splitPipeChars, ih hcs, if_neg hc]

lemma splitPipeChars_field (f cs : List Char) (h : '|' ∉ f) :
    splitPipeChars (f ++ '|' :: cs) = f :: splitPipeChars cs := by
  induction f with
  | nil => simp [splitPipeChars]
  | cons a as ih =>
    have ha : a ≠ '|' := by
      intro e
      exact h (by simp [e])
    have has : '|' ∉ as := fun hm => h (by simp [hm])
    have hne : splitPipeChars (as.append ('|' :: cs)) = as :: splitPipeChars cs := ih has
    simp only [List.cons_append, splitPipeChars, if_neg ha]
    rw [hne]

lemma slChars_no_pipe (sig : Signal) : '|' ∉ slChars sig := by
  rw [slChars]
  cases sig.sl with
  | none => simp
  | some v => exact numChars_no_pipe v

lemma tpChars_no_pipe (sig : Signal) : '|' ∉ tpChars sig := by
  rw [tpChars]
  cases sig.tp with
  | none => simp
  | some v => exact numChars_no_pipe v

lemma commentChars_no_pipe (sig : Signal) : '|' ∉ commentChars sig := by
  intro h
  rw [commentChars] at h
  rcases List.mem_map.mp h with ⟨x, _, hx⟩
  by_cases hxe : x = '|'
  · rw [if_pos hxe] at hx
    exact absurd hx (by decide)
  · rw [if_neg hxe] at hx
    exact hxe hx

lemma renderTxt_data (sig : Signal) :
    (renderTxt sig).data =
      ['O', 'K'] ++ '|' :: (sig.id.data ++ '|' :: (sig.action.data ++ '|' :: (sig.symbol.data
        ++ '|' :: (numChars sig.lots ++ '|' :: (slChars sig ++ '|' :: (tpChars sig
        ++ '|' :: (sig.ts.data ++ '|' :: (intChars sig.magic ++ '|' :: commentChars sig)))))))) := by
  have h1 : ("OK|" : String).data = ['O', 'K', '|'] := rfl
  have h2 : ("|" : String).data = ['|'] := rfl
  have h3 : ∀ l : List Char, (⟨l⟩ : String).data = l := fun l => rfl
  have h4 : (numStr sig.lots).data = numChars sig.lots := rfl
  have h5 : (intStr sig.magic).data = intChars sig.magic := rfl
  simp [renderTxt, String.data_append, h1, h2, h3, h4, h5]

lemma split_renderTxt (sig : Signal) (hid : '|' ∉ sig.id.data) (hact : '|' ∉ sig.action.data)
    (hsym : '|' ∉ sig.symbol.data) (hts : '|' ∉ sig.ts.data) :
    splitPipeChars (renderTxt sig).data =
      [['O', 'K'], sig.id.data, sig.action.data, sig.symbol.data, numChars sig.lots,
        slChars sig, tpChars sig, sig.ts.data, intChars sig.magic, commentChars sig] := by
  rw [renderTxt_data,
    splitPipeChars_field _ _ (by decide),
    splitPipeChars_field _ _ hid,
    splitPipeChars_field _ _ hact,
    splitPipeChars_field _ _ hsym,
    splitPipeChars_field _ _ (numChars_no_pipe _),
    splitPipeChars_field _ _ (slChars_no_pipe _),
    splitPipeChars_field _ _ (tpChars_no_pipe _),
    splitPipeChars_field _ _ hts,
    splitPipeChars_field _ _ (intChars_no_pipe _),
    splitPipeChars_no_pipe _ (commentChars_no_pipe _)]

lemma slChars_eq_nil_iff (sig : Signal) : slChars sig = [] ↔ sig.sl = none := by
  rw [slChars]
  cases sig.sl with
  | none => simp
  | some v => simp [numChars_ne_nil v]

lemma tpChars_eq_nil_iff (sig : Signal) : tpChars sig = [] ↔ sig.tp = none := by
  rw [tpChars]
  cases sig.tp with
  | none => simp
  | some v => simp [numChars_ne_nil v]

/-- C7 (amended): for every Signal whose id, action, symbol and timestamp are
free of the pipe character, splitting the line-text rendering on the pipe
character yields exactly 10 fields that recover id, action, symbol, lots,
timestamp and magic number exactly, and the sl and tp fields are empty
precisely when the values are absent. The pipe-freedom hypotheses are forced
by the counterexample renderTxt_pipe_in_symbol_cex: the code only sanitizes
the comment field. -/
theorem renderTxt_roundtrip (sig : Signal) (hid : '|' ∉ sig.id.data)
    (hact : '|' ∉ sig.action.data) (hsym : '|' ∉ sig.symbol.data)
    (hts : '|' ∉ sig.ts.data) : roundtripOK sig := by
  have hs := split_renderTxt sig hid hact hsym hts
  unfold roundtripOK splitPipe
  rw [hs]
  refine ⟨rfl, rfl, rfl, rfl, ?_, rfl, ?_, ?_, ?_⟩
  · show (parseRatChars (numChars sig.lots)) = some sig.lots
    exact parseRatChars_numChars sig.lots
  · show (parseIntChars (intChars sig.magic)) = some sig.magic
    exact parseIntChars_intChars sig.magic
  · show some (⟨slChars sig⟩ : String) = some "" ↔ sig.sl = none
    rw [← slChars_eq_nil_iff]
    constructor
    · intro h
      have hdata : (⟨slChars sig⟩ : String).data = ("" : String).data := by
        rw [Option.some_inj.mp h]
      exact hdata
    · intro h
      rw [h]
  · show some (⟨tpChars sig⟩ : String) = some "" ↔ sig.tp = none
    rw [← tpChars_eq_nil_iff]
    constructor
    · intro h
      have hdata : (⟨tpChars sig⟩ : String).data = ("" : String).data := by
        rw [Option.some_inj.mp h]
      exact hdata
    · intro h
      rw [h]

/-- Witness for renderTxt_roundtrip at the concrete signal wSig. -/
theorem renderTxt_roundtrip_witness :
    '|' ∉ wSig.id.data ∧ '|' ∉ wSig.action.data ∧ '|' ∉ wSig.symbol.data ∧
      '|' ∉ wSig.ts.data ∧ roundtripOK wSig :=
  ⟨by decide, by decide, by decide, by decide,
    renderTxt_roundtrip wSig (by decide) (by decide) (by decide) (by decide)⟩

/-- C7 (counterexample): the payload data7 with symbol A|B passes the webhook
pipeline and is stored, yet splitting its line-text rendering yields 11
fields, and field 3 is not the stored symbol; so the round trip of the claim
fails for a storable signal whose symbol carries a pipe. -/
theorem renderTxt_pipe_in_symbol_cex :
    webhook cfg7 data7 none none 0 "id0" "ts0" initState
        = (200, { last := some sig7, pending := some sig7 }) ∧
      sig7.symbol = "A|B" ∧
      (splitPipe (renderTxt sig7)).length = 11 ∧
      ¬ ((splitPipe (renderTxt sig7))[3]? = some sig7.symbol) := by
  refine ⟨by decide, by decide, by decide, by decide⟩

/-- C1 (exhibit): with one signal stored in pending and two concurrent /pull
handlers, the schedule read(T1), read(T2), clear(T1), clear(T2) makes both
handlers return the stored signal: the unlocked read-then-clear of
src/app.py lines 226 to 233 delivers one signal twice, so it is not true that
exactly one of the concurrent callers observes it. -/
theorem pull_race_double_delivery :
    raceRun { pending := some sig0, t1 := .start, t2 := .start } [false, true, false, true]
      = { pending := none, t1 := .done (some sig0), t2 := .done (some sig0) } := rfl

lemma raceRun_single_thread (p : Option Signal) (l : Option Signal) :
    raceRun { pending := p, t1 := .start, t2 := .done none } [false, false]
      = { pending := (takePending { last := l, pending := p }).2.pending,
          t1 := .done (takePending { last := l, pending := p }).1, t2 := .done none } := by
  cases p <;> rfl

lemma chain_eq (p h q : Option String) :
    (strOr p (strOr h q)).getD "" = firstNonEmptyCand p h q := by
  rcases p with _ | ps
  · rcases h with _ | hs
    · rcases q with _ | qs
      · rfl
      · by_cases hq : qs = "" <;> simp [strOr, firstNonEmptyCand, hq]
    · by_cases hh : hs = ""
      · rcases q with _ | qs
        · simp [strOr, firstNonEmptyCand, hh]
        · by_cases hq : qs = "" <;> simp [strOr, firstNonEmptyCand, hh, hq]
      · simp [strOr, firstNonEmptyCand, hh]
  · by_cases hp : ps = ""
    · rcases h with _ | hs
      · rcases q with _ | qs
        · simp [strOr, firstNonEmptyCand, hp]
        · by_cases hq : qs = "" <;> simp [strOr, firstNonEmptyCand, hp, hq]
      · by_cases hh : hs = ""
        · rcases q with _ | qs
          · simp [strOr, firstNonEmptyCand, hp, hh]
          · by_cases hq : qs = "" <;> simp [strOr, firstNonEmptyCand, hp, hh, hq]
        · simp [strOr, firstNonEmptyCand, hp, hh]
    · simp [strOr, firstNonEmptyCand, hp]

/-- C2: the authenticator accepts exactly when the configured secret is
non-empty and the first non-empty candidate among payload, header and query,
in that priority, equals the configured secret after trimming whitespace; in
particular an empty or unset configured secret rejects every candidate. -/
theorem check_secret_characterization (secret : String) (p h q : Option String) :
    check_secret secret p h q = true
      ↔ (secret ≠ "" ∧ pyStrip (firstNonEmptyCand p h q) = secret) := by
  unfold check_secret
  by_cases hs : secret = ""
  · simp [hs]
  · rw [if_neg hs, chain_eq]
    simp [hs, beq_iff_eq]

/-- C3: after a write and with no further write in between, the first
takePending returns the stored signal and the immediately following second one
returns absence; through the /pull handler the absent case renders as the
literal txt NONE or the JSON null marker. -/
theorem takePending_after_write_once (st : BState) (sig : Signal) :
    (takePending (writeSig sig st)).1 = some sig ∧
      (takePending (takePending (writeSig sig st)).2).1 = none ∧
      (∀ secret : String, ∀ hS qS : Option String,
        check_secret secret none hS qS = true →
          (pull secret hS qS (some "txt") (takePending (writeSig sig st)).2).1 = PullResp.txtNone ∧
          (pull secret hS qS none (takePending (writeSig sig st)).2).1 = PullResp.jsonNull) := by
  refine ⟨rfl, rfl, fun secret hS qS hauth => ?_⟩
  constructor <;> (unfold pull; rw [if_neg (by simp [hauth])]) <;> rfl

/-- Witness for takePending_after_write_once at a concrete state and secret. -/
theorem takePending_after_write_once_witness :
    check_secret "s" none (some "s") none = true ∧
      (pull "s" (some "s") none (some "txt") (takePending (writeSig sig0 initState)).2).1
        = PullResp.txtNone :=
  ⟨by decide,
    ((takePending_after_write_once initState sig0).2.2 "s" (some "s") none (by decide)).1⟩

lemma pull_consume_eq_takePending (secret : String) (hS qS fmtArg : Option String) (st : BState)
    (hauth : check_secret secret none hS qS = true) :
    (pull secret hS qS fmtArg st).2 = (takePending st).2 := by
  unfold pull takePending
  rw [if_neg (by simp [hauth])]
  cases st.pending <;> simp <;> split <;> rfl

lemma takePending_snd_cases (st : BState) :
    (takePending st).2 = st ∨ (takePending st).2 = { last := st.last, pending := none } := by
  rw [takePending]
  cases st.pending
  · exact Or.inl rfl
  · exact Or.inr rfl

lemma pull_snd_cases (secret : String) (hS qS f : Option String) (st : BState) :
    (pull secret hS qS f st).2 = st
      ∨ (pull secret hS qS f st).2 = { last := st.last, pending := none } := by
  by_cases hauth : check_secret secret none hS qS = true
  · rw [pull_consume_eq_takePending secret hS qS f st hauth]
    exact takePending_snd_cases st
  · unfold pull
    rw [if_pos hauth]
    exact Or.inl rfl

lemma applyOp_inv (cfg : Config) (st : BState) (op : Op) (h : stateInv st) :
    stateInv (applyOp cfg st op) := by
  cases op with
  | webhookOp data hS qS t fid ts =>
    simp only [applyOp, webhook]
    split
    · exact h
    · split
      · exact h
      · split
        · exact h
        · right
          rfl
  | pullOp hS qS f =>
    simp only [applyOp]
    rcases pull_snd_cases cfg.secret hS qS f st with he | he <;> rw [he]
    · exact h
    · left
      rfl
  | latestOp hS qS => exact h
  | healthOp => exact h

/-- C4: in every state reachable from the initial empty state by any sequence
of webhook, pull, latest and health operations, pending is either None or the
very signal held in last. -/
theorem reachable_pending_none_or_last (cfg : Config) (ops : List Op) :
    stateInv (ops.foldl (applyOp cfg) initState) := by
  have h0 : stateInv initState := Or.inl rfl
  suffices H : ∀ (l : List Op) (st : BState), stateInv st → stateInv (l.foldl (applyOp cfg) st) from
    H ops initState h0
  intro l
  induction l with
  | nil => intro st h; exact h
  | cons op l ih =>
    intro st h
    exact ih _ (applyOp_inv cfg st op h)

/-- C5: action normalization trims and uppercases its input and yields BUY
exactly on BUY and LONG, SELL exactly on SELL and SHORT, and the invalid
marker (empty string) exactly on everything else, the empty string and an
absent value included. -/
theorem normalize_action_characterization (a : Option String) :
    (normalize_action a = "BUY"
        ↔ (pyUpper (pyStrip (a.getD "")) = "BUY" ∨ pyUpper (pyStrip (a.getD "")) = "LONG")) ∧
      (normalize_action a = "SELL"
        ↔ (pyUpper (pyStrip (a.getD "")) = "SELL" ∨ pyUpper (pyStrip (a.getD "")) = "SHORT")) ∧
      (normalize_action a = ""
        ↔ ¬ (pyUpper (pyStrip (a.getD "")) = "BUY" ∨ pyUpper (pyStrip (a.getD "")) = "LONG"
            ∨ pyUpper (pyStrip (a.getD "")) = "SELL" ∨ pyUpper (pyStrip (a.getD "")) = "SHORT")) := by
  have hval : normalize_action a
      = (if pyUpper (pyStrip (a.getD "")) = "BUY" ∨ pyUpper (pyStrip (a.getD "")) = "LONG"
          then "BUY"
          else if pyUpper (pyStrip (a.getD "")) = "SELL" ∨ pyUpper (pyStrip (a.getD "")) = "SHORT"
          then "SELL" else "") := rfl
  rw [hval]
  by_cases hb : pyUpper (pyStrip (a.getD "")) = "BUY" ∨ pyUpper (pyStrip (a.getD "")) = "LONG"
  · rw [if_pos hb]
    refine ⟨by simp [hb], ?_, ?_⟩
    · constructor
      · intro he
        exact absurd he (by decide)
      · intro hor
        rcases hb with hb | hb <;> rcases hor with hor | hor <;> rw [hb] at hor <;>
          exact absurd hor (by decide)
    · constructor
      · intro he
        exact absurd he (by decide)
      · intro hnot
        exact absurd (hb.elim (fun x => Or.inl x) (fun x => Or.inr (Or.inl x))) hnot
  · rw [if_neg hb]
    by_cases hsell : pyUpper (pyStrip (a.getD "")) = "SELL" ∨ pyUpper (pyStrip (a.getD "")) = "SHORT"
    · rw [if_pos hsell]
      refine ⟨?_, by simp [hsell], ?_⟩
      · constructor
        · intro he
          exact absurd he (by decide)
        · intro hor
          exact absurd hor hb
      · constructor
        · intro he
          exact absurd he (by decide)
        · intro hnot
          refine absurd ?_ hnot
          rcases hsell with hx | hx
          · exact Or.inr (Or.inr (Or.inl hx))
          · exact Or.inr (Or.inr (Or.inr hx))
    · rw [if_neg hsell]
      refine ⟨?_, ?_, ?_⟩
      · constructor
        · intro he
          exact absurd he (by decide)
        · intro hor
          exact absurd hor hb
      · constructor
        · intro he
          exact absurd he (by decide)
        · intro hor
          exact absurd hor hsell
      · constructor
        · intro _
          intro hor
          rcases hor with hx | hx | hx | hx
          · exact hb (Or.inl hx)
          · exact hb (Or.inr hx)
          · exact hsell (Or.inl hx)
          · exact hsell (Or.inr hx)
        · intro _
          rfl

lemma in_trade_window_off (es : String) (hne : es ≠ "1") (s e t : Nat) :
    in_trade_window es s e t = true := by
  unfold in_trade_window
  rw [if_pos hne]

/-- C6: with enforcement on and the current local time outside the configured
window, an authenticated webhook request gets status 403 and the store is left
unchanged. -/
theorem webhook_outside_window_rejects_unchanged (cfg : Config) (data : SMap)
    (hS qS : Option String) (t : Nat) (fid ts : String) (st : BState)
    (hauth : check_secret cfg.secret (payload_secret data) hS qS = true)
    (henf : cfg.enforceHours = "1")
    (hout : ¬ (cfg.tradeStart ≤ t ∧ t ≤ cfg.tradeEnd)) :
    webhook cfg data hS qS t fid ts st = (403, st) := by
  have hw : in_trade_window cfg.enforceHours cfg.tradeStart cfg.tradeEnd t = false := by
    unfold in_trade_window
    rw [henf, if_neg (by simp)]
    by_cases h1 : cfg.tradeStart ≤ t <;> by_cases h2 : t ≤ cfg.tradeEnd <;>
      simp [h1, h2]
    exact absurd ⟨h1, h2⟩ hout
  unfold webhook
  rw [if_neg (by simp [hauth]), if_pos (by simp [hw])]

/-- Witness for webhook_outside_window_rejects_unchanged: window 09:00 to
09:01, request at 10:00 with a valid secret and BUY action. -/
theorem webhook_outside_window_witness :
    check_secret cfgW.secret (payload_secret dataW) none none = true ∧
      cfgW.enforceHours = "1" ∧ ¬ (cfgW.tradeStart ≤ 36000 ∧ 36000 ≤ cfgW.tradeEnd) ∧
      webhook cfgW dataW none none 36000 "i" "t" initState = (403, initState) :=
  ⟨by decide, by decide, by decide,
    webhook_outside_window_rejects_unchanged cfgW dataW none none 36000 "i" "t" initState
      (by decide) (by decide) (by decide)⟩

/-- C8: when enforcement is enabled the gate admits an instant exactly when its
local time of day lies within the inclusive configured window, and when it is
disabled (any value other than the literal 1) it admits every instant. -/
theorem in_trade_window_characterization (s e t : Nat) (es : String) :
    (in_trade_window "1" s e t = true ↔ (s ≤ t ∧ t ≤ e)) ∧
      (es ≠ "1" → in_trade_window es s e t = true) := by
  constructor
  · unfold in_trade_window
    rw [if_neg (by simp)]
    simp
  · intro h
    exact in_trade_window_off es h s e t

/-- Witness for in_trade_window_characterization at a disabled value. -/
theorem in_trade_window_characterization_witness :
    ("true" ≠ "1") ∧ in_trade_window "true" 10 20 99 = true :=
  ⟨by decide, (in_trade_window_characterization 10 20 99 "true").2 (by decide)⟩

/-- C10: enforcement is active only for the exact configured string 1; every
other value admits every instant regardless of the window bounds, while the
value 1 can reject. -/
theorem enforce_hours_only_literal_one :
    (∀ es : String, es ≠ "1" → ∀ s e t : Nat, in_trade_window es s e t = true) ∧
      in_trade_window "1" 1 2 0 = false := by
  constructor
  · intro es h s e t
    exact in_trade_window_off es h s e t
  · decide

/-- Witness for enforce_hours_only_literal_one at the value yes. -/
theorem enforce_hours_only_literal_one_witness :
    ("yes" ≠ "1") ∧ in_trade_window "yes" 5 6 100 = true :=
  ⟨by decide, enforce_hours_only_literal_one.1 "yes" (by decide) 5 6 100⟩

/-- C9 (counterexample): the mapping with magic set to the string 0 has a
present and parseable magic value whose integer coercion is 0, yet build_signal
normalizes it to the default 2026: the second `or 2026` on line 97 swallows a
parsed zero, refuting the claim that 2026 arises only when the value is absent
or unparseable. -/
theorem build_signal_magic_zero_cex :
    sget [("magic", PyVal.vStr "0")] "magic" = some (PyVal.vStr "0") ∧
      safe_float (some (PyVal.vStr "0")) = some 0 ∧
      specMagic (sget [("magic", PyVal.vStr "0")] "magic") = 0 ∧
      (build_signal [("magic", PyVal.vStr "0")] "x" "y").magic = 2026 := by
  refine ⟨by decide, by decide, by decide, by decide⟩

/-- C9 (amended): the normalized magicNumber is the truncated integer coercion
of the magic value when that value is present, truthy, parseable and nonzero,
and the default 2026 when it is absent, falsy (empty string or the number 0),
unparseable, or parses to zero. -/
theorem build_signal_magic_characterization (data : SMap) (freshId ts : String) :
    (build_signal data freshId ts).magic = specMagicAmended (sget data "magic") := by
  have hL : (build_signal data freshId ts).magic
      = ratTrunc (qOr (safe_float (some (pyOrD (sget data "magic")
          (.vNum (mkRat 2026 1))))) (mkRat 2026 1)) := rfl
  rw [hL]
  rcases hv : sget data "magic" with _ | x
  · decide
  · rcases x with s | q
    · by_cases hs : s = ""
      · subst hs
        decide
      · have htr : pyTruthy (some (PyVal.vStr s)) = true := by simp [pyTruthy, hs]
        have hor : pyOrD (some (PyVal.vStr s)) (.vNum (mkRat 2026 1)) = PyVal.vStr s := by
          simp [pyOrD, htr]
        rw [hor]
        simp only [specMagicAmended, htr, Bool.true_eq_false, if_false]
        cases hsf : safe_float (some (PyVal.vStr s)) with
        | none => simp [qOr]; decide
        | some q =>
          by_cases hq : q.num = 0
          · have hq0 : q = 0 := Rat.num_eq_zero.mp hq
            simp [qOr, hq, hq0]
            decide
          · have hq0 : ¬ q = 0 := fun hz => hq (Rat.num_eq_zero.mpr hz)
            simp [qOr, hq, hq0]
    · by_cases hq : q.num = 0
      · have htr : pyTruthy (some (PyVal.vNum q)) = false := by simp [pyTruthy, hq]
        simp only [specMagicAmended, htr, if_pos rfl]
        simp [pyOrD, htr, safe_float, qOr]
        decide
      · have htr : pyTruthy (some (PyVal.vNum q)) = true := by simp [pyTruthy, hq]
        have hor : pyOrD (some (PyVal.vNum q)) (.vNum (mkRat 2026 1)) = PyVal.vNum q := by
          simp [pyOrD, htr]
        rw [hor]
        have hq0 : ¬ q = 0 := fun hz => hq (Rat.num_eq_zero.mpr hz)
        simp only [specMagicAmended, htr, Bool.true_eq_false, if_false]
        simp [safe_float, qOr, hq, hq0]
